import Mathlib

/-!
Shallow embedding of the SPI tester firmware (src/spitester.cpp) from the
ms-iot/busses-tester repository.  Hardware registers, the SPI master and the
timer interrupt handler are modelled as an adversarial environment: every value
the code reads from a volatile register or from the shared interrupt counter is
supplied by an environment record, and every write the code performs to a
hardware register is recorded in an action trace.  Machine integers are
naturals with explicit reduction modulo 2^32 (or 2^16 for the CRC) at the
operations where the C code's fixed width matters.
-/

/-- Modulus of the MCU's 32-bit unsigned arithmetic. -/
def M32 : Nat := 4294967296

/-- Reduce a natural number to its 32-bit unsigned value. -/
def u32 (n : Nat) : Nat := n % M32

/-- Two's-complement 32-bit unsigned subtraction. -/
def u32sub (a b : Nat) : Nat := (u32 a + (M32 - u32 b)) % M32

/-- Reinterpretation of a 32-bit unsigned value as a signed `int`, as performed
by the C conversion in `int difference = lastAckedInterruptCount - remainingInterrupts`. -/
def toI32 (n : Nat) : Int :=
  if u32 n < 2147483648 then (u32 n : Int) else (u32 n : Int) - 4294967296

/-- Bitwise 32-bit complement, the cheap reply checksum `~ackInfo.TimeSinceFallingEdge`. -/
def u32not (n : Nat) : Nat := 4294967295 - u32 n

theorem u32_lt (n : Nat) : u32 n < M32 := Nat.mod_lt _ (by decide)

theorem u32_of_lt {n : Nat} (h : n < M32) : u32 n = n := Nat.mod_eq_of_lt h

theorem u32_add_right (a b : Nat) : u32 (u32 a + b) = u32 (a + b) := by
  simp [u32, Nat.mod_add_mod]

theorem u32sub_exact {a b : Nat} (hb : b ≤ a) (ha : a < M32) :
    u32sub a b = a - b := by
  have hbM : b < M32 := lt_of_le_of_lt hb ha
  unfold u32sub
  rw [u32_of_lt ha, u32_of_lt hbM]
  have h1 : a + (M32 - b) = (a - b) + M32 := by omega
  rw [h1, Nat.add_mod_right, Nat.mod_eq_of_lt (by omega)]

theorem u32sub_u32_add {s m : Nat} (hs : s < M32) (hm : m < M32) :
    u32sub (u32 (s + m)) s = m := by
  unfold u32sub
  rw [u32_of_lt hs, u32_of_lt (u32_lt (s + m))]
  unfold u32
  rw [Nat.mod_add_mod]
  have h1 : s + m + (M32 - s) = m + M32 := by omega
  rw [h1, Nat.add_mod_right, Nat.mod_eq_of_lt hm]

/-! ### CRC-16 codec

The repository computes response-frame checksums with a `Crc16` helper class
and a `crc16_update` routine declared in headers (util.h) that are not among
the provided sources; only their call sites appear in src/spitester.cpp. -/

/-- One shift-and-conditional-xor round of the CRC-16 update, over 16-bit values. -/
def crc16_round (c : Nat) : Nat :=
  if c &&& 32768 ≠ 0 then ((c <<< 1) ^^^ 4129) % 65536 else (c <<< 1) % 65536

/-- Iterate `crc16_round`. -/
def crc16_rounds : Nat → Nat → Nat
  | 0, c => c
  | n + 1, c => crc16_rounds n (crc16_round c)

/-- Modelled from the spec: the byte-wise CRC-16/CCITT-style running update
(`crc16_update` from the repository's util.h, not among the provided sources):
xor the byte into the high half of the running value, then eight
shift-and-conditional-xor rounds with polynomial 0x1021. -/
def crc16_update (crc b : Nat) : Nat :=
  crc16_rounds 8 ((crc ^^^ ((b % 256) <<< 8)) % 65536)

/-- Modelled from the spec: running CRC-16 over a byte sequence, starting from
0 exactly as the zero-initialised running checksum in `CaptureTransfer` does. -/
def crc16 (bytes : List Nat) : Nat := bytes.foldl crc16_update 0

/-! ### Response frame preparation (SspSendImpl, src/spitester.cpp lines 156-162)

The header layout of a response frame lives in lldtester.h, which is not among
the provided sources; the spec says the header carries a length, a tag and a
CRC-16 checksum field.  A frame is modelled as its raw byte sequence with the
two checksum bytes (little endian) at offset `coff`. -/

/-- Store a 16-bit checksum value into the two checksum bytes of a frame. -/
def setChecksumBytes (bytes : List Nat) (coff c : Nat) : List Nat :=
  (bytes.set coff (c % 256)).set (coff + 1) (c / 256 % 256)

/-- Zero the checksum field of a frame, as `Data.Header.Checksum = 0` does. -/
def zeroChecksum (bytes : List Nat) (coff : Nat) : List Nat :=
  setChecksumBytes bytes coff 0

/-- Read the 16-bit checksum field of a frame. -/
def readChecksum (bytes : List Nat) (coff : Nat) : Nat :=
  bytes.getD coff 0 + 256 * bytes.getD (coff + 1) 0

/-- Frame preparation performed by `SspSendImpl` (src/spitester.cpp lines
156-162): zero the header's checksum field, run CRC-16 over the whole frame,
and store the result back into the checksum field.  The bytes produced here
are what the transmit FIFO is fed. -/
def sspSendImplFrame (bytes : List Nat) (coff : Nat) : List Nat :=
  setChecksumBytes (zeroChecksum bytes coff) coff (crc16 (zeroChecksum bytes coff))

/-! ### WaitForCapture (src/spitester.cpp lines 246-275) -/

/-- Status values of the tester's clock measurement, from their uses in
src/spitester.cpp. -/
inductive ClockMeasurementStatus where
  | Success
  | EdgeNotDetected
  | Overflow
deriving DecidableEq

/-- One iteration of the `WaitForCapture` polling loop as seen by the code: the
value of the receive-FIFO-not-empty flag when the `while` condition is read,
and the successive values the eleven unrolled reads of the capture register
CR0 would return (a list shorter than eleven stands for an environment whose
remaining reads return 0). -/
structure CapturePoll where
  rne : Bool
  cr0 : List Nat
deriving DecidableEq

/-- The polling loop of `WaitForCapture`.  `capture` is the current value of
the local variable of the same name; the C local is declared uninitialized, so
the caller passes the arbitrary junk value it starts out with.  Each iteration
first reads the RNE flag (loop condition), then performs the eleven CR0 reads,
breaking out with the first nonzero value; if all reads return zero the local
ends the iteration holding 0.  `none` models the loop spinning forever. -/
def wfcLoop : Nat → List CapturePoll → Option Nat
  | _, [] => none
  | capture, p :: rest =>
    if p.rne then some capture
    else
      match (p.cr0.take 11).find? (fun v => v != 0) with
      | some v => some v
      | none => wfcLoop 0 rest

/-- Environment of one `WaitForCapture` call: the junk value of the
uninitialized local `capture`, the successive register reads of the polling
loop, and the free-running counter value TC read on the fallback path. -/
structure WfcEnv where
  captureInit : Nat
  polls : List CapturePoll
  tc : Nat
deriving DecidableEq

/-- `WaitForCapture` (src/spitester.cpp lines 246-275): poll until a byte is
received or a nonzero capture appears; a nonzero final `capture` is reported
as `Success`, otherwise the free-running counter value is substituted and
`EdgeNotDetected` returned. -/
def waitForCapture (env : WfcEnv) : Option (ClockMeasurementStatus × Nat) :=
  (wfcLoop env.captureInit env.polls).map fun capture =>
    if capture ≠ 0 then (ClockMeasurementStatus.Success, capture)
    else (ClockMeasurementStatus.EdgeNotDetected, env.tc)

/-! ### CaptureTransfer (src/spitester.cpp lines 277-381) -/

/-- Result record of a single-transfer capture, with the fields of
`Lldt::Spi::TransferInfo` that src/spitester.cpp assigns. -/
structure TransferInfo where
  ClockActiveTimeStatus : ClockMeasurementStatus := ClockMeasurementStatus.Success
  ClockActiveTime : Nat := 0
  Checksum : Nat := 0
  ElementCount : Nat := 0
  MismatchIndex : Nat := 0
deriving DecidableEq

/-- Parameters of the CaptureNextTransfer command used by `CaptureTransfer`
(the `u.CaptureNextTransfer` member of the 8-byte command block). -/
structure CaptureNextTransferCommand where
  Mode : Nat
  DataBitLength : Nat
  SendValue : Nat
  ReceiveValue : Nat
deriving DecidableEq

/-- One iteration of the main polling loop of `CaptureTransfer`, as the code
observes it: `rxData` holds the byte read from the data register when the
status read had RNE set (`none` when the receive FIFO was empty), `cs` is the
chip-select level consulted when no byte was available, and `tnf` is the
transmit-FIFO-not-full flag of the same status read. -/
structure XferEvent where
  rxData : Option Nat
  cs : Bool
  tnf : Bool
deriving DecidableEq

/-- The loop breaks exactly when the receive FIFO is empty and chip select has
deasserted. -/
def isBreakEvt (e : XferEvent) : Bool := e.rxData.isNone && !e.cs

/-- Mutable locals of the `CaptureTransfer` polling loop. -/
structure XferState where
  checksum : Nat
  rxValue : Nat
  txValue : Nat
  mismatchDetected : Bool
  mismatchIndex : Nat
deriving DecidableEq

/-- Handling of one received element in the `CaptureTransfer` polling loop
(src/spitester.cpp lines 325-340): the byte is checksummed (two bytes when
the data mask carries bit 8), compared against the expected incrementing
value with only the first mismatch recorded (by its receive index), the
expected value is incremented, and the transmit value advanced when the
transmit FIFO had space. -/
def xferStep (dataMask sendValue : Nat) (s : XferState) (data : Nat) (tnf : Bool) :
    XferState :=
  let c1 := crc16_update s.checksum (data % 256)
  let c2 := if dataMask &&& 256 ≠ 0 then crc16_update c1 (data / 256 % 256) else c1
  { checksum := c2
    rxValue := u32 (s.rxValue + 1)
    txValue := if tnf then u32 (s.txValue + 1) else s.txValue
    mismatchDetected := s.mismatchDetected || decide (data ≠ s.rxValue &&& dataMask)
    mismatchIndex :=
      if data ≠ s.rxValue &&& dataMask ∧ s.mismatchDetected = false then
        u32sub s.rxValue sendValue
      else s.mismatchIndex }

/-- The main polling loop of `CaptureTransfer` (src/spitester.cpp lines
321-352): each received byte is processed by `xferStep`; with no byte
available, a deasserted chip select breaks out of the loop, otherwise only
the transmit value may advance.  `none` models the loop polling forever. -/
def xferLoop (dataMask sendValue : Nat) : XferState → List XferEvent → Option XferState
  | _, [] => none
  | s, e :: rest =>
    match e.rxData with
    | some data => xferLoop dataMask sendValue (xferStep dataMask sendValue s data e.tnf) rest
    | none =>
      if !e.cs then some s
      else
        xferLoop dataMask sendValue
          { s with txValue := if e.tnf then u32 (s.txValue + 1) else s.txValue } rest

/-- Environment of one `CaptureTransfer` call: the environment of the embedded
`WaitForCapture` call, the loop's register observations, and the post-loop
reads of the timer enable bit (cleared by the stop-on-match overflow guard)
and of the capture register CR0. -/
structure CaptureEnv where
  wfc : WfcEnv
  events : List XferEvent
  timerStillEnabled : Bool
  capture2 : Nat
deriving DecidableEq

/-- `CaptureTransfer` (src/spitester.cpp lines 277-381).  The expected receive
value starts at the command's SendValue and the transmitted value at its
ReceiveValue advanced by the eight-element initial FIFO fill; after the loop,
a cleared timer-enable bit downgrades a successful first capture to
`Overflow`, otherwise the active clock time is the difference of the two
captures; the element count is the number of received elements and the
mismatch index defaults to it when no mismatch was detected.  Pin, mode and
timer configuration writes performed by this function are not traced. -/
def captureTransfer (cmd : CaptureNextTransferCommand) (env : CaptureEnv) :
    Option TransferInfo :=
  let dataMask := (1 <<< cmd.DataBitLength) - 1
  match waitForCapture env.wfc with
  | none => none
  | some (status1, capture1) =>
    let s0 : XferState :=
      { checksum := 0
        rxValue := cmd.SendValue
        txValue := u32 (cmd.ReceiveValue + 8)
        mismatchDetected := false
        mismatchIndex := 0 }
    match xferLoop dataMask cmd.SendValue s0 env.events with
    | none => none
    | some fin =>
      let info : TransferInfo :=
        { ClockActiveTimeStatus :=
            if status1 = ClockMeasurementStatus.Success then
              if !env.timerStillEnabled then ClockMeasurementStatus.Overflow
              else ClockMeasurementStatus.Success
            else status1
          ClockActiveTime :=
            if status1 = ClockMeasurementStatus.Success ∧ env.timerStillEnabled then
              u32sub env.capture2 capture1
            else 0
          Checksum := fin.checksum
          ElementCount := u32sub fin.rxValue cmd.SendValue
          MismatchIndex :=
            if fin.mismatchDetected then fin.mismatchIndex
            else u32sub fin.rxValue cmd.SendValue }
      some info

/-- Elements actually received by the loop: the bytes of the events consumed
before the break event, in order. -/
def consumedRx (evs : List XferEvent) : List Nat :=
  (evs.takeWhile fun e => !isBreakEvt e).filterMap XferEvent.rxData

/-- Predicate: the event list contains a break event, so the loop terminates. -/
def hasBreakEvt (evs : List XferEvent) : Bool := evs.any isBreakEvt

/-- Position of the first received element that differs from the expected
incrementing sequence, among elements received with ordinal numbers `k`,
`k+1`, ... for a transfer whose expected sequence starts at `S`. -/
def firstMismFrom (S dataMask k : Nat) : List Nat → Option Nat
  | [] => none
  | d :: ds =>
    if d ≠ u32 (S + k) &&& dataMask then some 0
    else (firstMismFrom S dataMask (k + 1) ds).map (· + 1)

/-! ### RunPeriodicInterrupts (src/spitester.cpp lines 395-592) -/

/-- Modelled from the spec: the `AcknowledgeInterrupt` member of the
`SpiTesterCommand` enumeration, defined in the repository's lldtester.h, which
is not among the provided sources.  Its concrete value is an external protocol
constant; only its distinctness from other bytes matters here. -/
def AcknowledgeInterruptCommand : Nat := 134

/-- Modelled from the spec: the reserved invalid sentinel
`INVALID_TIME_SINCE_FALLING_EDGE` from the repository's lldtester.h (not among
the provided sources), a latency value recognisably excluded from statistics;
taken as the all-ones 32-bit value. -/
def INVALID_TIME_SINCE_FALLING_EDGE : Nat := 4294967295

/-- Status bits of `PeriodicInterruptInfo.Status.s`, from their uses in
src/spitester.cpp. -/
structure PeriodicInterruptStatus where
  ArithmeticOverflow : Bool := false
  NotAcknowledged : Bool := false
  IncompleteReceive : Bool := false
  IncompleteTransmit : Bool := false
  TransmitUnderrun : Bool := false
deriving DecidableEq

/-- Result record of a periodic-interrupt session, with the fields of
`Lldt::Spi::PeriodicInterruptInfo` that src/spitester.cpp assigns.  Value
initialisation zeroes every field. -/
structure PeriodicInterruptInfo where
  Status : PeriodicInterruptStatus := {}
  InterruptCount : Nat := 0
  AcknowledgedBeforeDeadlineCount : Nat := 0
  AcknowledgedAfterDeadlineCount : Nat := 0
  AlreadyAcknowledgedCount : Nat := 0
deriving DecidableEq

/-- Reply payload of one acknowledgement round (`AcknowledgeInterruptInfo`):
the measured latency and its bit-inversion checksum. -/
structure AcknowledgeInterruptInfo where
  TimeSinceFallingEdge : Nat
  Checksum : Nat
deriving DecidableEq

/-- Parameters of the StartPeriodicInterrupts command used by
`RunPeriodicInterrupts` (the `u.StartPeriodicInterrupts` member of the
command block). -/
structure StartPeriodicInterruptsCommand where
  DurationInSeconds : Nat
  InterruptFrequency : Nat
deriving DecidableEq

/-- Modelled from the spec: `ComputeInterruptCount` of the
StartPeriodicInterrupts command (declared in the repository's lldtester.h, not
among the provided sources): the total interrupt count is the requested
duration times the interrupt frequency, and the computation fails when the
product does not fit the representable 32-bit interrupt-count range. -/
def ComputeInterruptCount (cmd : StartPeriodicInterruptsCommand) : Option Nat :=
  if cmd.DurationInSeconds * cmd.InterruptFrequency < M32 then
    some (cmd.DurationInSeconds * cmd.InterruptFrequency)
  else none

/-- Hardware register operations performed by `RunPeriodicInterrupts`,
recorded in program order.  FIFO data writes and register reads are not
actions; the eight-byte dummy exchange that clears the FIFOs at the top of
every round is recorded as a single action. -/
inductive HwAction where
  | timerReset
  | timerEnable
  | clearTimerIR
  | setMCR (v : Nat)
  | setMR0 (v : Nat)
  | setEMR (v : Nat)
  | orEMR (v : Nat)
  | setCCR (v : Nat)
  | setRemainingInterrupts (n : Nat)
  | muxInterruptOutput
  | demuxInterruptOutput
  | nvicEnableTimer2Irq
  | nvicDisableTimer2Irq
  | enableSckFallingEdge
  | disableSckFallingEdge
  | fifoDummyExchange
  | waitCsDeassert
  | actLedOff
deriving DecidableEq

/-- What the master delivered as the first byte of an acknowledgement round:
either chip select deasserted before any byte arrived, or a byte was read
from the data register. -/
inductive FirstByte where
  | csDeassert
  | received (b : Nat)
deriving DecidableEq

/-- One status-register read of the reply-streaming loop: the
transmit-FIFO-empty and transmit-FIFO-not-full flags of the status read, and
the chip-select level checked afterwards. -/
structure TxEvent where
  tfe : Bool
  tnf : Bool
  cs : Bool
deriving DecidableEq

/-- Environment of one acknowledgement round: the value the volatile
`remainingInterrupts` counter shows at the `while` head, the free-running
counter value snapshotted after the SCK falling edge, the master's first
byte, the counter value read inside the critical section for the difference
computation, and the status reads of the reply-streaming loop.  The counter
values are whatever the concurrently running TIMER2 interrupt handler has
left; no assumption about them is built in. -/
structure AckRound where
  remainingAtHead : Nat
  capture : Nat
  firstByte : FirstByte
  remainingAtClassify : Nat
  txEvents : List TxEvent
deriving DecidableEq

/-- Locals of the per-interrupt loop of `RunPeriodicInterrupts`, together
with the result record whose status bits the loop mutates in place. -/
structure PiState where
  info : PeriodicInterruptInfo
  interruptCount : Nat
  lastAcked : Nat
  already : Nat
  ackedBefore : Nat
  ackedPast : Nat
deriving DecidableEq

/-- Set the IncompleteReceive status bit. -/
def setIncompleteReceive (info : PeriodicInterruptInfo) : PeriodicInterruptInfo :=
  { info with Status := { info.Status with IncompleteReceive := true } }

/-- Set the NotAcknowledged status bit. -/
def setNotAcknowledged (info : PeriodicInterruptInfo) : PeriodicInterruptInfo :=
  { info with Status := { info.Status with NotAcknowledged := true } }

/-- Set the ArithmeticOverflow status bit. -/
def setArithmeticOverflow (info : PeriodicInterruptInfo) : PeriodicInterruptInfo :=
  { info with Status := { info.Status with ArithmeticOverflow := true } }

/-- Record the flags of one reply-streaming run in the status word. -/
def applyTxFlags (info : PeriodicInterruptInfo) (fl : Bool × Bool) :
    PeriodicInterruptInfo :=
  { info with Status :=
      { info.Status with
        TransmitUnderrun := info.Status.TransmitUnderrun || fl.1
        IncompleteTransmit := info.Status.IncompleteTransmit || fl.2 } }

/-- The reply-streaming loop of an acknowledgement round (src/spitester.cpp
lines 545-568), sending the bytes of the eight-byte `AcknowledgeInterruptInfo`.
Each iteration reads the status register: a set TFE flag records a transmit
underrun and breaks; otherwise a set TNF flag queues the next byte; a
deasserted chip select then records an incomplete transmit and breaks.  The
result is the pair of flags (underrun, incomplete transmit); `none` models
the loop polling forever on an exhausted environment. -/
def sendAck : Nat → List TxEvent → Option (Bool × Bool)
  | 0, _ => some (false, false)
  | _ + 1, [] => none
  | n + 1, e :: rest =>
    if e.tfe then some (true, false)
    else
      let n' := if e.tnf then n else n + 1
      if !e.cs then some (false, true)
      else sendAck n' rest

/-- Outcome of one acknowledgement round: an early return with the result
record, an endless poll, or continuation with the updated state, the reply
payload that was streamed, and the round's action trace. -/
inductive RoundOutcome where
  | abort (info : PeriodicInterruptInfo) (tr : List HwAction)
  | hung (tr : List HwAction)
  | next (st : PiState) (ack : AcknowledgeInterruptInfo) (tr : List HwAction)
deriving DecidableEq

/-- Latency classification and reply construction of one acknowledgement
round (src/spitester.cpp lines 513-543), performed inside the critical
section.  The difference of the last acknowledged count and the counter
snapshot is computed in 32-bit unsigned arithmetic and reinterpreted as a
signed `int`; a negative difference returns `none` (the ArithmeticOverflow
abort), zero counts the round as already acknowledged and uses the reserved
invalid sentinel as latency, one counts it as acknowledged before the
deadline with the raw captured timestamp, and a larger difference counts it
as past the deadline with the missed periods added; the last acknowledged
count is then reduced by the difference and the reply checksum is the bit
inversion of the latency. -/
def classifyAck (period : Nat) (st : PiState) (capture remaining : Nat) :
    Option (PiState × AcknowledgeInterruptInfo) :=
  let d32 := u32sub st.lastAcked remaining
  let difference : Int := toI32 d32
  if difference < 0 then none
  else
    let st1 :=
      if difference = 0 then { st with already := u32 (st.already + 1) }
      else if difference = 1 then { st with ackedBefore := u32 (st.ackedBefore + 1) }
      else { st with ackedPast := u32 (st.ackedPast + 1) }
    let tsfe :=
      if difference = 0 then INVALID_TIME_SINCE_FALLING_EDGE
      else if difference = 1 then capture
      else u32 ((difference - 1).toNat * period + capture)
    let ack : AcknowledgeInterruptInfo :=
      { TimeSinceFallingEdge := tsfe, Checksum := u32not tsfe }
    some ({ st1 with lastAcked := u32sub st1.lastAcked difference.toNat }, ack)

/-- One acknowledgement round of `RunPeriodicInterrupts` (src/spitester.cpp
lines 467-571), entered with the `while` head already found nonzero: the
FIFOs are cleared, the SCK falling edge awaited, the counter snapshotted and
the interrupt output deasserted; chip-select deassertion before the first
byte returns with IncompleteReceive, a first byte other than
AcknowledgeInterrupt drains the frame and returns with NotAcknowledged; the
difference classification builds the reply (or returns with
ArithmeticOverflow), and the reply is streamed out with the resulting
transmit flags recorded in the status word. -/
def roundStep (period : Nat) (st : PiState) (r : AckRound) : RoundOutcome :=
  let tr0 : List HwAction := [HwAction.fifoDummyExchange, HwAction.orEMR 1]
  match r.firstByte with
  | FirstByte.csDeassert => RoundOutcome.abort (setIncompleteReceive st.info) tr0
  | FirstByte.received b =>
    if b ≠ AcknowledgeInterruptCommand then
      RoundOutcome.abort (setNotAcknowledged st.info) (tr0 ++ [HwAction.waitCsDeassert])
    else
      match classifyAck period st r.capture r.remainingAtClassify with
      | none => RoundOutcome.abort (setArithmeticOverflow st.info) tr0
      | some (st2, ack) =>
        match sendAck 8 r.txEvents with
        | none => RoundOutcome.hung tr0
        | some fl =>
          RoundOutcome.next { st2 with info := applyTxFlags st2.info fl } ack
            (tr0 ++ [HwAction.waitCsDeassert])

/-- Final result of a periodic-interrupt session: the loop polls forever, or
the function returns early from inside a round, or the loop drains normally
and the populated result record is returned. -/
inductive SessionResult where
  | hang
  | aborted (info : PeriodicInterruptInfo)
  | completed (info : PeriodicInterruptInfo)
deriving DecidableEq

/-- Population of the result record on normal completion (src/spitester.cpp
lines 577-580). -/
def finalizeInfo (st : PiState) : PeriodicInterruptInfo :=
  { st.info with
    InterruptCount := st.interruptCount
    AcknowledgedBeforeDeadlineCount := st.ackedBefore
    AcknowledgedAfterDeadlineCount := st.ackedPast
    AlreadyAcknowledgedCount := st.already }

/-- The per-interrupt loop: each element of `env` carries the value the
volatile counter shows at the `while` head; a zero there exits the loop
normally, otherwise the round runs.  An exhausted environment while the
counter stays nonzero models the loop (inside `WaitForSckFallingEdge`)
spinning forever. -/
def runLoop (period : Nat) : PiState → List AckRound → SessionResult × List HwAction
  | _, [] => (SessionResult.hang, [])
  | st, r :: rest =>
    if r.remainingAtHead = 0 then (SessionResult.completed (finalizeInfo st), [])
    else
      match roundStep period st r with
      | RoundOutcome.abort info tr => (SessionResult.aborted info, tr)
      | RoundOutcome.hung tr => (SessionResult.hang, tr)
      | RoundOutcome.next st' _ tr =>
        ((runLoop period st' rest).1, tr ++ (runLoop period st' rest).2)

/-- Teardown performed by the `Finally` scope guard installed after the arm
phase (src/spitester.cpp lines 454-465): disable SCK falling-edge detection,
put the timer in reset, disable the timer interrupt at the controller,
de-assert and de-mux the interrupt output, and clear the activity LED. -/
def teardownTrace : List HwAction :=
  [HwAction.disableSckFallingEdge, HwAction.timerReset,
   HwAction.nvicDisableTimer2Irq, HwAction.setEMR 1,
   HwAction.demuxInterruptOutput, HwAction.actLedOff]

/-- Timer configuration writes of the arm phase performed before the
interrupt-count computation (src/spitester.cpp lines 409-424): reset, clear
the interrupt flags, program interrupt-and-reset on match with the period as
match value, configure the match output to pulse low from an initially high
level, and disable capture. -/
def armTraceHead (period : Nat) : List HwAction :=
  [HwAction.timerReset, HwAction.clearTimerIR, HwAction.setMCR 3,
   HwAction.setMR0 period, HwAction.setEMR 17, HwAction.setCCR 0]

/-- `RunPeriodicInterrupts` (src/spitester.cpp lines 395-592).  The match
period is the timing-reference frequency divided by the requested interrupt
frequency; an interrupt-count overflow aborts with ArithmeticOverflow before
anything is armed; otherwise the shared counter is set, the interrupt output
muxed, the timer interrupt enabled and the timer started, SCK falling-edge
detection enabled, and the per-interrupt loop runs.  On every return after
the arm phase the `Finally` guard appends the teardown; if the loop never
returns the teardown never runs. -/
def runPeriodicInterrupts (clockMeasurementFrequency : Nat)
    (cmd : StartPeriodicInterruptsCommand) (env : List AckRound) :
    SessionResult × List HwAction :=
  let period := clockMeasurementFrequency / cmd.InterruptFrequency
  match ComputeInterruptCount cmd with
  | none =>
    (SessionResult.aborted { Status := { ArithmeticOverflow := true } },
     armTraceHead period)
  | some interruptCount =>
    let armTrace := armTraceHead period ++
      [HwAction.setRemainingInterrupts interruptCount, HwAction.muxInterruptOutput,
       HwAction.nvicEnableTimer2Irq, HwAction.timerEnable,
       HwAction.enableSckFallingEdge]
    let st0 : PiState :=
      { info := {}, interruptCount := interruptCount, lastAcked := interruptCount
        already := 0, ackedBefore := 0, ackedPast := 0 }
    match runLoop period st0 env with
    | (SessionResult.hang, tr) => (SessionResult.hang, armTrace ++ tr)
    | (SessionResult.aborted info, tr) =>
      (SessionResult.aborted info, armTrace ++ tr ++ teardownTrace)
    | (SessionResult.completed info, tr) =>
      (SessionResult.completed info, armTrace ++ tr ++ teardownTrace)

/-- Number of acknowledgement rounds the per-interrupt loop actually executes
when it completes normally: the rounds before the first one whose `while`
head reads zero. -/
def ackRoundsCount (env : List AckRound) : Nat :=
  (env.takeWhile fun r => r.remainingAtHead != 0).length

/-! ### Helper lemmas -/

theorem crc16_rounds_lt : ∀ (n : Nat) {c : Nat}, c < 65536 → crc16_rounds n c < 65536
  | 0, _, h => h
  | n + 1, c, _ => by
    show crc16_rounds n (crc16_round c) < 65536
    apply crc16_rounds_lt n
    unfold crc16_round
    split
    · exact Nat.mod_lt _ (by decide)
    · exact Nat.mod_lt _ (by decide)

theorem crc16_update_lt (crc b : Nat) : crc16_update crc b < 65536 :=
  crc16_rounds_lt 8 (Nat.mod_lt _ (by decide))

theorem crc16_foldl_lt : ∀ (l : List Nat) {c : Nat}, c < 65536 → l.foldl crc16_update c < 65536
  | [], _, h => h
  | b :: l, c, _ => by
    simp only [List.foldl_cons]
    exact crc16_foldl_lt l (crc16_update_lt c b)

theorem crc16_lt (bytes : List Nat) : crc16 bytes < 65536 :=
  crc16_foldl_lt bytes (by decide)

theorem zeroChecksum_setChecksumBytes (l : List Nat) (coff c : Nat) :
    zeroChecksum (setChecksumBytes l coff c) coff = zeroChecksum l coff := by
  unfold zeroChecksum setChecksumBytes
  rw [List.set_comm (c / 256 % 256) (0 % 256) (l.set coff (c % 256)) (by omega)]
  rw [List.set_set, List.set_set]

theorem readChecksum_setChecksumBytes (l : List Nat) (coff c : Nat)
    (h : coff + 1 < l.length) (hc : c < 65536) :
    readChecksum (setChecksumBytes l coff c) coff = c := by
  unfold readChecksum setChecksumBytes
  have h1 : coff < ((l.set coff (c % 256)).set (coff + 1) (c / 256 % 256)).length := by
    simp only [List.length_set]; omega
  have h2 : coff + 1 < ((l.set coff (c % 256)).set (coff + 1) (c / 256 % 256)).length := by
    simp only [List.length_set]; omega
  rw [List.getD_eq_getElem _ _ h1, List.getD_eq_getElem _ _ h2]
  rw [List.getElem_set_ne (by omega), List.getElem_set_self, List.getElem_set_self]
  omega

/-! ### Claim theorems: checksum codec and capture scenarios -/

/-- C9: for every response frame prepared by SspSendImpl, the frame's
checksum field equals the CRC-16 of the whole frame with the checksum field
zeroed; re-zeroing the checksum field of the transmitted bytes and rerunning
the CRC-16 over them reproduces the transmitted checksum. -/
theorem response_checksum_roundtrip (bytes : List Nat) (coff : Nat)
    (h : coff + 1 < bytes.length) :
    readChecksum (sspSendImplFrame bytes coff) coff
      = crc16 (zeroChecksum (sspSendImplFrame bytes coff) coff) := by
  have hzz : zeroChecksum (zeroChecksum bytes coff) coff = zeroChecksum bytes coff :=
    zeroChecksum_setChecksumBytes bytes coff 0
  unfold sspSendImplFrame
  rw [zeroChecksum_setChecksumBytes, hzz]
  rw [readChecksum_setChecksumBytes _ _ _ ?_ (crc16_lt _)]
  unfold zeroChecksum setChecksumBytes
  simp only [List.length_set]
  exact h

/-- Witness for C9 at a concrete six-byte frame with the checksum field at
offset 3. -/
theorem response_checksum_roundtrip_witness :
    3 + 1 < ([6, 1, 2, 0, 0, 9] : List Nat).length ∧
    readChecksum (sspSendImplFrame [6, 1, 2, 0, 0, 9] 3) 3
      = crc16 (zeroChecksum (sspSendImplFrame [6, 1, 2, 0, 0, 9] 3) 3) :=
  ⟨by decide, response_checksum_roundtrip [6, 1, 2, 0, 0, 9] 3 (by decide)⟩

/-- C10: WaitForCapture means to use a zero capture register as its "no
capture yet" sentinel, but the local `capture` is declared uninitialized;
when a byte is already waiting in the receive FIFO at entry the polling loop
body never runs and the junk value is returned as the measurement: with junk
7 the call reports Success and the junk as the captured value although the
capture register was never read (and may well read 0), while the very same
execution with junk 0 reports EdgeNotDetected with the counter substituted —
so Success can be returned without any nonzero capture value having been
read, against the claim's last clause. -/
theorem waitForCapture_uninitialized_junk :
    waitForCapture { captureInit := 7, polls := [{ rne := true, cr0 := [] }], tc := 3 }
        = some (ClockMeasurementStatus.Success, 7) ∧
    waitForCapture { captureInit := 0, polls := [{ rne := true, cr0 := [] }], tc := 3 }
        = some (ClockMeasurementStatus.EdgeNotDetected, 3) :=
  ⟨rfl, rfl⟩

/-- Receive event of the transfer-capture loop carrying one element. -/
def rxEvt (d : Nat) : XferEvent := { rxData := some d, cs := true, tnf := false }

/-- Loop event with an empty receive FIFO and chip select deasserted. -/
def csBreakEvt : XferEvent := { rxData := none, cs := false, tnf := false }

/-- The CaptureNextTransfer command of the C4 scenario: 8-bit data,
SendValue 0x10, ReceiveValue 0x50. -/
def c4Command : CaptureNextTransferCommand :=
  { Mode := 0, DataBitLength := 8, SendValue := 16, ReceiveValue := 80 }

/-- Environment in which the master clocks in the given bytes and then
deasserts chip select, with a successful initial capture. -/
def c4Env (bytes : List Nat) : CaptureEnv :=
  { wfc := { captureInit := 0, polls := [{ rne := false, cr0 := [5] }], tc := 0 }
    events := bytes.map rxEvt ++ [csBreakEvt]
    timerStillEnabled := true
    capture2 := 12 }

/-- C4 (amended): in the capture scenario with DataBitLength 8, SendValue
0x10 and ReceiveValue 0x50, the value the tester expects to receive follows
the SendValue sequence 0x10, 0x11, 0x12; when the master sends that sequence
with the byte at index 1 corrupted to 0x99, the resulting TransferInfo has
MismatchIndex 1 and ElementCount 3. -/
theorem captureTransfer_corruption_scenario :
    (captureTransfer c4Command (c4Env [16, 153, 18])).map TransferInfo.MismatchIndex
        = some 1 ∧
    (captureTransfer c4Command (c4Env [16, 153, 18])).map TransferInfo.ElementCount
        = some 3 := by
  constructor <;> decide

/-- Counterexample to C4 as stated: with the master sending 0x50, 0x51, 0x52
(the ReceiveValue sequence) and index 1 corrupted to 0x99, every received
byte differs from the expected SendValue sequence 0x10, 0x11, 0x12, so the
first mismatch is recorded at index 0, not 1 (the element count is 3 as
claimed). -/
theorem captureTransfer_corruption_scenario_original :
    (captureTransfer c4Command (c4Env [80, 153, 82])).map TransferInfo.MismatchIndex
        = some 0 ∧
    (captureTransfer c4Command (c4Env [80, 153, 82])).map TransferInfo.MismatchIndex
        ≠ some 1 ∧
    (captureTransfer c4Command (c4Env [80, 153, 82])).map TransferInfo.ElementCount
        = some 3 := by
  refine ⟨by decide, by decide, by decide⟩

/-! ### Claim theorems: arm-phase overflow and teardown -/

/-- C6: when the requested duration times the interrupt frequency does not
fit the representable 32-bit interrupt-count range, RunPeriodicInterrupts
returns a result whose only content is the ArithmeticOverflow status flag,
and generates no interrupts: the shared remaining-interrupts counter is
never set, the timer interrupt is never enabled at the controller, and the
timer is never started. -/
theorem periodic_overflow_no_arm (cf : Nat) (cmd : StartPeriodicInterruptsCommand)
    (env : List AckRound)
    (h : M32 ≤ cmd.DurationInSeconds * cmd.InterruptFrequency) :
    (runPeriodicInterrupts cf cmd env).1
        = SessionResult.aborted { Status := { ArithmeticOverflow := true } } ∧
    (∀ n, HwAction.setRemainingInterrupts n ∉ (runPeriodicInterrupts cf cmd env).2) ∧
    HwAction.nvicEnableTimer2Irq ∉ (runPeriodicInterrupts cf cmd env).2 ∧
    HwAction.timerEnable ∉ (runPeriodicInterrupts cf cmd env).2 := by
  have hc : ComputeInterruptCount cmd = none := by
    unfold ComputeInterruptCount
    rw [if_neg (by omega)]
  refine ⟨?_, ?_, ?_, ?_⟩ <;> simp [runPeriodicInterrupts, hc, armTraceHead]

/-- Witness for C6 at a concrete overflowing command (65536 s at 65536 Hz). -/
theorem periodic_overflow_no_arm_witness :
    M32 ≤ (65536 : Nat) * 65536 ∧
    (runPeriodicInterrupts 1
          { DurationInSeconds := 65536, InterruptFrequency := 65536 } []).1
        = SessionResult.aborted { Status := { ArithmeticOverflow := true } } :=
  ⟨by decide,
   (periodic_overflow_no_arm 1
      { DurationInSeconds := 65536, InterruptFrequency := 65536 } [] (by decide)).1⟩

/-- C3 (amended): on every exit path reached once the arm phase has
succeeded (the interrupt-count computation did not overflow) and the
per-interrupt loop returns rather than polling forever, the teardown is
performed as the trailing actions of the session's hardware trace: SCK
falling-edge detection disabled, timer stopped and reset, timer interrupt
disabled at the controller, interrupt output de-asserted and de-muxed, and
the activity indicator cleared.  The arithmetic-overflow abort of the arm
phase is the one exit that skips the teardown, which the counterexample
shows. -/
theorem teardown_after_arm (cf : Nat) (cmd : StartPeriodicInterruptsCommand)
    (env : List AckRound) (n : Nat) (hc : ComputeInterruptCount cmd = some n)
    (hres : (runPeriodicInterrupts cf cmd env).1 ≠ SessionResult.hang) :
    List.IsSuffix teardownTrace (runPeriodicInterrupts cf cmd env).2 := by
  simp only [runPeriodicInterrupts, hc] at hres ⊢
  rcases hrl : runLoop (cf / cmd.InterruptFrequency)
      { info := {}, interruptCount := n, lastAcked := n,
        already := 0, ackedBefore := 0, ackedPast := 0 } env with ⟨res, tr⟩
  cases res with
  | hang =>
    rw [hrl] at hres
    simp at hres
  | aborted info => exact List.suffix_append _ teardownTrace
  | completed info => exact List.suffix_append _ teardownTrace

/-- A round whose loop-head check reads zero, exiting the loop normally. -/
def zeroHeadRound : AckRound :=
  { remainingAtHead := 0, capture := 0, firstByte := FirstByte.csDeassert,
    remainingAtClassify := 0, txEvents := [] }

/-- Witness for C3's amended theorem at a concrete non-hanging session. -/
theorem teardown_after_arm_witness :
    ComputeInterruptCount { DurationInSeconds := 1, InterruptFrequency := 1 } = some 1 ∧
    (runPeriodicInterrupts 100 { DurationInSeconds := 1, InterruptFrequency := 1 }
        [zeroHeadRound]).1 ≠ SessionResult.hang ∧
    List.IsSuffix teardownTrace
      (runPeriodicInterrupts 100 { DurationInSeconds := 1, InterruptFrequency := 1 }
        [zeroHeadRound]).2 :=
  ⟨by decide, by decide,
   teardown_after_arm 100 { DurationInSeconds := 1, InterruptFrequency := 1 }
     [zeroHeadRound] 1 (by decide) (by decide)⟩

/-- Counterexample to C3 as stated: the arithmetic-overflow abort is an exit
path of RunPeriodicInterrupts (an early abort), yet none of the teardown
actions is performed there — the `Finally` guard is installed only after the
overflow check, so this return skips disabling the clock-sense interrupt,
disabling the timer interrupt at the controller, de-muxing the interrupt
output and clearing the activity indicator. -/
theorem overflow_abort_skips_teardown :
    (runPeriodicInterrupts 1
          { DurationInSeconds := 65536, InterruptFrequency := 65536 } []).1
        = SessionResult.aborted { Status := { ArithmeticOverflow := true } } ∧
    HwAction.disableSckFallingEdge ∉
      (runPeriodicInterrupts 1
          { DurationInSeconds := 65536, InterruptFrequency := 65536 } []).2 ∧
    HwAction.nvicDisableTimer2Irq ∉
      (runPeriodicInterrupts 1
          { DurationInSeconds := 65536, InterruptFrequency := 65536 } []).2 ∧
    HwAction.demuxInterruptOutput ∉
      (runPeriodicInterrupts 1
          { DurationInSeconds := 65536, InterruptFrequency := 65536 } []).2 ∧
    HwAction.actLedOff ∉
      (runPeriodicInterrupts 1
          { DurationInSeconds := 65536, InterruptFrequency := 65536 } []).2 := by
  refine ⟨by decide, by decide, by decide, by decide, by decide⟩

/-! ### Classification helpers -/

theorem toI32_of_lt {n : Nat} (h : n < 2147483648) : toI32 n = (n : Int) := by
  unfold toI32 u32
  rw [Nat.mod_eq_of_lt (lt_trans h (by decide))]
  rw [if_pos h]

theorem classifyAck_spec (period : Nat) (st : PiState) (capture remaining : Nat)
    (hd : u32sub st.lastAcked remaining < 2147483648) :
    ∃ st2 ack, classifyAck period st capture remaining = some (st2, ack) ∧
      st2.info = st.info ∧
      st2.interruptCount = st.interruptCount ∧
      st2.lastAcked = u32sub st.lastAcked (u32sub st.lastAcked remaining) ∧
      ack.Checksum = u32not ack.TimeSinceFallingEdge ∧
      (u32sub st.lastAcked remaining = 0 →
        ack.TimeSinceFallingEdge = INVALID_TIME_SINCE_FALLING_EDGE ∧
        st2.already = u32 (st.already + 1) ∧ st2.ackedBefore = st.ackedBefore ∧
        st2.ackedPast = st.ackedPast) ∧
      (u32sub st.lastAcked remaining = 1 →
        ack.TimeSinceFallingEdge = capture ∧
        st2.already = st.already ∧ st2.ackedBefore = u32 (st.ackedBefore + 1) ∧
        st2.ackedPast = st.ackedPast) ∧
      (1 < u32sub st.lastAcked remaining →
        ack.TimeSinceFallingEdge
            = u32 ((u32sub st.lastAcked remaining - 1) * period + capture) ∧
        st2.already = st.already ∧ st2.ackedBefore = st.ackedBefore ∧
        st2.ackedPast = u32 (st.ackedPast + 1)) := by
  have ht : toI32 (u32sub st.lastAcked remaining)
      = ((u32sub st.lastAcked remaining : Nat) : Int) := toI32_of_lt hd
  simp only [classifyAck, ht]
  split_ifs with h1 h2 h3
  · exact absurd h1 (by omega)
  · have h0 : u32sub st.lastAcked remaining = 0 := by omega
    have htn : ((u32sub st.lastAcked remaining : Nat) : Int).toNat
        = u32sub st.lastAcked remaining := by omega
    refine ⟨_, _, rfl, rfl, rfl, by rw [htn], rfl, ?_, ?_, ?_⟩
    · intro _
      exact ⟨rfl, rfl, rfl, rfl⟩
    · intro h; omega
    · intro h; omega
  · have h0 : u32sub st.lastAcked remaining = 1 := by omega
    have htn : ((u32sub st.lastAcked remaining : Nat) : Int).toNat
        = u32sub st.lastAcked remaining := by omega
    refine ⟨_, _, rfl, rfl, rfl, by rw [htn], rfl, ?_, ?_, ?_⟩
    · intro h; omega
    · intro _
      exact ⟨rfl, rfl, rfl, rfl⟩
    · intro h; omega
  · have h0 : 1 < u32sub st.lastAcked remaining := by omega
    have htn : ((u32sub st.lastAcked remaining : Nat) : Int).toNat
        = u32sub st.lastAcked remaining := by omega
    have htn1 : (((u32sub st.lastAcked remaining : Nat) : Int) - 1).toNat
        = u32sub st.lastAcked remaining - 1 := by omega
    refine ⟨_, _, rfl, rfl, rfl, by rw [htn], rfl, ?_, ?_, ?_⟩
    · intro h; omega
    · intro h; omega
    · intro _
      rw [htn1]
      exact ⟨rfl, rfl, rfl, rfl⟩

theorem u32sub_lt (a b : Nat) : u32sub a b < M32 := Nat.mod_lt _ (by decide)

theorem classifyAck_some_inv {period : Nat} {st : PiState} {capture remaining : Nat}
    {st2 : PiState} {ack : AcknowledgeInterruptInfo}
    (h : classifyAck period st capture remaining = some (st2, ack)) :
    u32sub st.lastAcked remaining < 2147483648 := by
  by_contra hge
  have hlt : u32sub st.lastAcked remaining < M32 := u32sub_lt _ _
  have hneg : toI32 (u32sub st.lastAcked remaining) < 0 := by
    unfold toI32
    rw [u32_of_lt hlt, if_neg (by omega)]
    have : M32 = 4294967296 := rfl
    omega
  unfold classifyAck at h
  rw [if_pos hneg] at h
  exact Option.noConfusion h

/-! ### Claim theorem: latency classification (C1) -/

/-- C1: in an acknowledgement round, with difference the signed gap between
the last acknowledged count and the counter snapshot (both read in the
critical section) and `capture` the counter value snapshotted at the SCK
falling edge: a difference of 1 makes the reply's TimeSinceFallingEdge the
raw capture; a larger difference makes it (difference - 1) * period +
capture in 32-bit arithmetic; a zero difference counts the round as already
acknowledged and uses the reserved invalid sentinel; and afterwards the last
acknowledged count has been decremented by exactly the difference. -/
theorem ack_latency_classification (period : Nat) (st : PiState)
    (capture remaining : Nat)
    (hd : u32sub st.lastAcked remaining < 2147483648) :
    ∃ st2 ack, classifyAck period st capture remaining = some (st2, ack) ∧
      (u32sub st.lastAcked remaining = 1 → ack.TimeSinceFallingEdge = capture) ∧
      (1 < u32sub st.lastAcked remaining →
        ack.TimeSinceFallingEdge
          = u32 ((u32sub st.lastAcked remaining - 1) * period + capture)) ∧
      (u32sub st.lastAcked remaining = 0 →
        ack.TimeSinceFallingEdge = INVALID_TIME_SINCE_FALLING_EDGE ∧
        st2.already = u32 (st.already + 1)) ∧
      st2.lastAcked = u32sub st.lastAcked (u32sub st.lastAcked remaining) ∧
      (st.lastAcked < M32 → u32sub st.lastAcked remaining ≤ st.lastAcked →
        st2.lastAcked = st.lastAcked - u32sub st.lastAcked remaining) := by
  obtain ⟨st2, ack, heq, _, _, hlast, _, h0, h1, h2⟩ :=
    classifyAck_spec period st capture remaining hd
  refine ⟨st2, ack, heq, ?_, ?_, ?_, hlast, ?_⟩
  · intro h
    exact (h1 h).1
  · intro h
    exact (h2 h).1
  · intro h
    exact ⟨(h0 h).1, (h0 h).2.1⟩
  · intro hM hle
    rw [hlast, u32sub_exact hle hM]

/-- Concrete loop state for the C1 witness: five interrupts pending, none
acknowledged yet. -/
def c1State : PiState :=
  { info := {}, interruptCount := 5, lastAcked := 5,
    already := 0, ackedBefore := 0, ackedPast := 0 }

/-- Witness for C1 at period 10, capture 42 and counter snapshot 3, a round
whose difference is 2. -/
theorem ack_latency_classification_witness :
    u32sub c1State.lastAcked 3 < 2147483648 ∧
    (∃ st2 ack, classifyAck 10 c1State 42 3 = some (st2, ack) ∧
      (u32sub c1State.lastAcked 3 = 1 → ack.TimeSinceFallingEdge = 42) ∧
      (1 < u32sub c1State.lastAcked 3 →
        ack.TimeSinceFallingEdge
          = u32 ((u32sub c1State.lastAcked 3 - 1) * 10 + 42)) ∧
      (u32sub c1State.lastAcked 3 = 0 →
        ack.TimeSinceFallingEdge = INVALID_TIME_SINCE_FALLING_EDGE ∧
        st2.already = u32 (c1State.already + 1)) ∧
      st2.lastAcked = u32sub c1State.lastAcked (u32sub c1State.lastAcked 3) ∧
      (c1State.lastAcked < M32 → u32sub c1State.lastAcked 3 ≤ c1State.lastAcked →
        st2.lastAcked = c1State.lastAcked - u32sub c1State.lastAcked 3)) :=
  ⟨by decide, ack_latency_classification 10 c1State 42 3 (by decide)⟩

/-! ### Round-level helpers -/

theorem roundStep_abort_info (period : Nat) (st : PiState) (r : AckRound)
    (info : PeriodicInterruptInfo) (tr : List HwAction)
    (h : roundStep period st r = RoundOutcome.abort info tr) :
    info.InterruptCount = st.info.InterruptCount ∧
    info.AlreadyAcknowledgedCount = st.info.AlreadyAcknowledgedCount ∧
    info.AcknowledgedBeforeDeadlineCount = st.info.AcknowledgedBeforeDeadlineCount ∧
    info.AcknowledgedAfterDeadlineCount = st.info.AcknowledgedAfterDeadlineCount := by
  cases hfb : r.firstByte with
  | csDeassert =>
    simp only [roundStep, hfb] at h
    injection h with h1 _
    subst h1
    simp [setIncompleteReceive]
  | received b =>
    simp only [roundStep, hfb] at h
    by_cases hb : b = AcknowledgeInterruptCommand
    · rw [if_neg (by simp [hb])] at h
      cases hca : classifyAck period st r.capture r.remainingAtClassify with
      | none =>
        rw [hca] at h
        injection h with h1 _
        subst h1
        simp [setArithmeticOverflow]
      | some p =>
        obtain ⟨st2, ack⟩ := p
        rw [hca] at h
        cases hsa : sendAck 8 r.txEvents with
        | none =>
          rw [hsa] at h
          exact absurd h (by simp)
        | some fl =>
          rw [hsa] at h
          exact absurd h (by simp)
    · rw [if_pos hb] at h
      injection h with h1 _
      subst h1
      simp [setNotAcknowledged]

theorem roundStep_next_spec (period : Nat) (st : PiState) (r : AckRound)
    (st' : PiState) (ack : AcknowledgeInterruptInfo) (tr : List HwAction)
    (h : roundStep period st r = RoundOutcome.next st' ack tr) :
    ∃ st2 fl, r.firstByte = FirstByte.received AcknowledgeInterruptCommand ∧
      classifyAck period st r.capture r.remainingAtClassify = some (st2, ack) ∧
      sendAck 8 r.txEvents = some fl ∧
      st' = { st2 with info := applyTxFlags st2.info fl } ∧
      tr = [HwAction.fifoDummyExchange, HwAction.orEMR 1, HwAction.waitCsDeassert] := by
  cases hfb : r.firstByte with
  | csDeassert =>
    simp only [roundStep, hfb] at h
    exact absurd h (by simp)
  | received b =>
    simp only [roundStep, hfb] at h
    by_cases hb : b = AcknowledgeInterruptCommand
    · rw [if_neg (by simp [hb])] at h
      cases hca : classifyAck period st r.capture r.remainingAtClassify with
      | none =>
        rw [hca] at h
        exact absurd h (by simp)
      | some p =>
        obtain ⟨st2, ack2⟩ := p
        rw [hca] at h
        cases hsa : sendAck 8 r.txEvents with
        | none =>
          rw [hsa] at h
          exact absurd h (by simp)
        | some fl =>
          rw [hsa] at h
          injection h with h1 h2 h3
          subst h1
          subst h2
          subst h3
          subst hb
          exact ⟨st2, fl, rfl, rfl, rfl, rfl, rfl⟩
    · rw [if_pos hb] at h
      exact absurd h (by simp)

theorem runLoop_abort_counts (period : Nat) :
    ∀ (env : List AckRound) (st : PiState) (info : PeriodicInterruptInfo)
      (tr : List HwAction),
      runLoop period st env = (SessionResult.aborted info, tr) →
      info.InterruptCount = st.info.InterruptCount ∧
      info.AlreadyAcknowledgedCount = st.info.AlreadyAcknowledgedCount ∧
      info.AcknowledgedBeforeDeadlineCount = st.info.AcknowledgedBeforeDeadlineCount ∧
      info.AcknowledgedAfterDeadlineCount = st.info.AcknowledgedAfterDeadlineCount := by
  intro env
  induction env with
  | nil =>
    intro st info tr h
    simp [runLoop] at h
  | cons r rest ih =>
    intro st info tr h
    unfold runLoop at h
    split_ifs at h with hh
    · simp at h
    · cases hrs : roundStep period st r with
      | abort info2 tr2 =>
        simp only [hrs] at h
        injection h with h1 h2
        injection h1 with h3
        subst h3
        exact roundStep_abort_info period st r _ tr2 hrs
      | hung tr2 =>
        simp only [hrs] at h
        simp at h
      | next st2 ack tr2 =>
        simp only [hrs] at h
        rcases hrl : runLoop period st2 rest with ⟨res2, trr⟩
        rw [hrl] at h
        injection h with h1 h2
        subst h1
        obtain ⟨hi1, hi2, hi3, hi4⟩ := ih st2 info trr hrl
        obtain ⟨st3, fl, _, hca, _, hst2, _⟩ :=
          roundStep_next_spec period st r st2 ack tr2 hrs
        have hd := classifyAck_some_inv hca
        obtain ⟨st3b, ackb, hcab, hinfo, _, _, _, _, _, _⟩ :=
          classifyAck_spec period st r.capture r.remainingAtClassify hd
        rw [hca] at hcab
        injection hcab with hpair
        injection hpair with hst hack
        subst hst2
        constructor
        · rw [hi1]
          show (applyTxFlags st3.info fl).InterruptCount = st.info.InterruptCount
          rw [show (applyTxFlags st3.info fl).InterruptCount = st3.info.InterruptCount from rfl]
          rw [hst, hinfo]
        constructor
        · rw [hi2]
          show (applyTxFlags st3.info fl).AlreadyAcknowledgedCount
              = st.info.AlreadyAcknowledgedCount
          rw [show (applyTxFlags st3.info fl).AlreadyAcknowledgedCount
              = st3.info.AlreadyAcknowledgedCount from rfl]
          rw [hst, hinfo]
        constructor
        · rw [hi3]
          show (applyTxFlags st3.info fl).AcknowledgedBeforeDeadlineCount
              = st.info.AcknowledgedBeforeDeadlineCount
          rw [show (applyTxFlags st3.info fl).AcknowledgedBeforeDeadlineCount
              = st3.info.AcknowledgedBeforeDeadlineCount from rfl]
          rw [hst, hinfo]
        · rw [hi4]
          show (applyTxFlags st3.info fl).AcknowledgedAfterDeadlineCount
              = st.info.AcknowledgedAfterDeadlineCount
          rw [show (applyTxFlags st3.info fl).AcknowledgedAfterDeadlineCount
              = st3.info.AcknowledgedAfterDeadlineCount from rfl]
          rw [hst, hinfo]

/-! ### Claim theorems: abort paths and non-fatal transmit flags -/

/-- C7: a first byte other than the AcknowledgeInterrupt command code makes
the round return immediately with the NotAcknowledged status (after
draining the frame), and chip-select deassertion before any byte arrives
makes it return immediately with IncompleteReceive; in every aborted
session, whatever its cause, InterruptCount and the three
acknowledgement-bucket counters are left at their zero initialisation,
never populated with partial results. -/
theorem periodic_abort_paths :
    (∀ (cf : Nat) (cmd : StartPeriodicInterruptsCommand) (env : List AckRound)
        (info : PeriodicInterruptInfo) (tr : List HwAction),
        runPeriodicInterrupts cf cmd env = (SessionResult.aborted info, tr) →
        info.InterruptCount = 0 ∧ info.AlreadyAcknowledgedCount = 0 ∧
        info.AcknowledgedBeforeDeadlineCount = 0 ∧
        info.AcknowledgedAfterDeadlineCount = 0) ∧
    (∀ (period : Nat) (st : PiState) (r : AckRound) (rest : List AckRound),
        r.remainingAtHead ≠ 0 → r.firstByte = FirstByte.csDeassert →
        runLoop period st (r :: rest)
          = (SessionResult.aborted (setIncompleteReceive st.info),
             [HwAction.fifoDummyExchange, HwAction.orEMR 1]) ∧
        (setIncompleteReceive st.info).Status.IncompleteReceive = true) ∧
    (∀ (period : Nat) (st : PiState) (r : AckRound) (rest : List AckRound) (b : Nat),
        r.remainingAtHead ≠ 0 → r.firstByte = FirstByte.received b →
        b ≠ AcknowledgeInterruptCommand →
        runLoop period st (r :: rest)
          = (SessionResult.aborted (setNotAcknowledged st.info),
             [HwAction.fifoDummyExchange, HwAction.orEMR 1,
              HwAction.waitCsDeassert]) ∧
        (setNotAcknowledged st.info).Status.NotAcknowledged = true) := by
  refine ⟨?_, ?_, ?_⟩
  · intro cf cmd env info tr h
    unfold runPeriodicInterrupts at h
    cases hcc : ComputeInterruptCount cmd with
    | none =>
      simp only [hcc] at h
      injection h with h1 _
      injection h1 with h3
      subst h3
      exact ⟨rfl, rfl, rfl, rfl⟩
    | some n =>
      simp only [hcc] at h
      rcases hrl : runLoop (cf / cmd.InterruptFrequency)
          { info := {}, interruptCount := n, lastAcked := n,
            already := 0, ackedBefore := 0, ackedPast := 0 } env with ⟨res, trr⟩
      rw [hrl] at h
      cases res with
      | hang => simp at h
      | completed info2 => simp at h
      | aborted info2 =>
        simp only [] at h
        injection h with h1 _
        injection h1 with h3
        subst h3
        obtain ⟨a, b, c, d⟩ := runLoop_abort_counts (cf / cmd.InterruptFrequency)
          env _ _ trr hrl
        exact ⟨a, b, c, d⟩
  · intro period st r rest hh hfb
    refine ⟨?_, rfl⟩
    unfold runLoop
    rw [if_neg hh]
    simp only [roundStep, hfb]
  · intro period st r rest b hh hfb hb
    refine ⟨?_, rfl⟩
    unfold runLoop
    rw [if_neg hh]
    simp only [roundStep, hfb]
    rw [if_pos hb]
    exact rfl

/-- Witness for C7: a concrete round whose first byte is 0 (not the
AcknowledgeInterrupt code) aborts with NotAcknowledged, through the third
conjunct of the theorem. -/
theorem periodic_abort_paths_witness :
    (7 : Nat) ≠ 0 ∧ (0 : Nat) ≠ AcknowledgeInterruptCommand ∧
    runLoop 10 c1State
        [{ remainingAtHead := 7, capture := 0, firstByte := FirstByte.received 0,
           remainingAtClassify := 0, txEvents := [] }]
      = (SessionResult.aborted (setNotAcknowledged c1State.info),
         [HwAction.fifoDummyExchange, HwAction.orEMR 1, HwAction.waitCsDeassert]) ∧
    (setNotAcknowledged c1State.info).Status.NotAcknowledged = true :=
  ⟨by decide, by decide,
   (periodic_abort_paths.2.2 10 c1State
      { remainingAtHead := 7, capture := 0, firstByte := FirstByte.received 0,
        remainingAtClassify := 0, txEvents := [] } [] 0
      (by decide) rfl (by decide)).1,
   (periodic_abort_paths.2.2 10 c1State
      { remainingAtHead := 7, capture := 0, firstByte := FirstByte.received 0,
        remainingAtClassify := 0, txEvents := [] } [] 0
      (by decide) rfl (by decide)).2⟩

/-- C8: when the reply-streaming loop of a round breaks out because the
transmit FIFO emptied (TransmitUnderrun) or because chip select deasserted
mid-reply (IncompleteTransmit), the flag is recorded in the status word and
the session continues with the next iteration of the per-interrupt loop —
these conditions are never fatal to the session on their own. -/
theorem send_flags_nonfatal (period : Nat) (st : PiState) (r : AckRound)
    (rest : List AckRound) (u i : Bool)
    (hh : r.remainingAtHead ≠ 0)
    (hfb : r.firstByte = FirstByte.received AcknowledgeInterruptCommand)
    (hd : u32sub st.lastAcked r.remainingAtClassify < 2147483648)
    (hs : sendAck 8 r.txEvents = some (u, i)) :
    ∃ st2 ack,
      classifyAck period st r.capture r.remainingAtClassify = some (st2, ack) ∧
      roundStep period st r
        = RoundOutcome.next { st2 with info := applyTxFlags st2.info (u, i) } ack
            [HwAction.fifoDummyExchange, HwAction.orEMR 1, HwAction.waitCsDeassert] ∧
      (runLoop period st (r :: rest)).1
        = (runLoop period { st2 with info := applyTxFlags st2.info (u, i) } rest).1 ∧
      (applyTxFlags st2.info (u, i)).Status.TransmitUnderrun
        = (st.info.Status.TransmitUnderrun || u) ∧
      (applyTxFlags st2.info (u, i)).Status.IncompleteTransmit
        = (st.info.Status.IncompleteTransmit || i) := by
  obtain ⟨st2, ack, hca, hinfo, _⟩ :=
    classifyAck_spec period st r.capture r.remainingAtClassify hd
  have hrs : roundStep period st r
      = RoundOutcome.next { st2 with info := applyTxFlags st2.info (u, i) } ack
          [HwAction.fifoDummyExchange, HwAction.orEMR 1, HwAction.waitCsDeassert] := by
    simp only [roundStep, hfb]
    rw [if_neg (by simp), hca, hs]
    exact rfl
  have hfst : (runLoop period st (r :: rest)).1
      = (runLoop period { st2 with info := applyTxFlags st2.info (u, i) } rest).1 := by
    conv_lhs => unfold runLoop
    rw [if_neg hh, hrs]
  refine ⟨st2, ack, hca, hrs, hfst, ?_, ?_⟩
  · show (st2.info.Status.TransmitUnderrun || u) = (st.info.Status.TransmitUnderrun || u)
    rw [hinfo]
  · show (st2.info.Status.IncompleteTransmit || i) = (st.info.Status.IncompleteTransmit || i)
    rw [hinfo]

/-- Eight status reads ample for a clean reply transmission. -/
def goodTx8 : List TxEvent := List.replicate 8 { tfe := false, tnf := true, cs := true }

/-- A round whose reply transmission hits a transmit-FIFO-empty status read
on the first byte, for the C8 witness. -/
def c8Round : AckRound :=
  { remainingAtHead := 7, capture := 42,
    firstByte := FirstByte.received AcknowledgeInterruptCommand,
    remainingAtClassify := 3,
    txEvents := [{ tfe := true, tnf := true, cs := true }] }

/-- Witness for C8: a concrete round with an underrun mid-reply records
TransmitUnderrun and the loop continues. -/
theorem send_flags_nonfatal_witness :
    c8Round.remainingAtHead ≠ 0 ∧
    sendAck 8 c8Round.txEvents = some (true, false) ∧
    (∃ st2 ack,
      classifyAck 10 c1State c8Round.capture c8Round.remainingAtClassify
          = some (st2, ack) ∧
      roundStep 10 c1State c8Round
        = RoundOutcome.next { st2 with info := applyTxFlags st2.info (true, false) } ack
            [HwAction.fifoDummyExchange, HwAction.orEMR 1, HwAction.waitCsDeassert] ∧
      (runLoop 10 c1State (c8Round :: [])).1
        = (runLoop 10 { st2 with info := applyTxFlags st2.info (true, false) } []).1 ∧
      (applyTxFlags st2.info (true, false)).Status.TransmitUnderrun
        = (c1State.info.Status.TransmitUnderrun || true) ∧
      (applyTxFlags st2.info (true, false)).Status.IncompleteTransmit
        = (c1State.info.Status.IncompleteTransmit || false)) :=
  ⟨by decide, by decide,
   send_flags_nonfatal 10 c1State c8Round [] true false (by decide) rfl (by decide)
     (by decide)⟩

/-! ### Claim theorems: acknowledgement bucket sum (C2) -/

theorem runLoop_completed_sum (period : Nat) :
    ∀ (env : List AckRound) (st : PiState) (info : PeriodicInterruptInfo)
      (tr : List HwAction),
      st.already + st.ackedBefore + st.ackedPast + env.length < M32 →
      runLoop period st env = (SessionResult.completed info, tr) →
      info.AlreadyAcknowledgedCount + info.AcknowledgedBeforeDeadlineCount
          + info.AcknowledgedAfterDeadlineCount
        = st.already + st.ackedBefore + st.ackedPast + ackRoundsCount env := by
  intro env
  induction env with
  | nil =>
    intro st info tr _ h
    simp [runLoop] at h
  | cons r rest ih =>
    intro st info tr hb h
    unfold runLoop at h
    by_cases hh : r.remainingAtHead = 0
    · rw [if_pos hh] at h
      injection h with h1 _
      injection h1 with h3
      subst h3
      have hcnt : ackRoundsCount (r :: rest) = 0 := by
        unfold ackRoundsCount
        rw [List.takeWhile_cons, if_neg (by simp [hh])]
        rfl
      rw [hcnt]
      show st.already + st.ackedBefore + st.ackedPast
          = st.already + st.ackedBefore + st.ackedPast + 0
      omega
    · rw [if_neg hh] at h
      cases hrs : roundStep period st r with
      | abort info2 tr2 =>
        simp only [hrs] at h
        simp at h
      | hung tr2 =>
        simp only [hrs] at h
        simp at h
      | next st2n ack tr2 =>
        simp only [hrs] at h
        rcases hrl : runLoop period st2n rest with ⟨res2, trr⟩
        rw [hrl] at h
        cases res2 with
        | hang => simp at h
        | aborted i2 => simp at h
        | completed i2 =>
          have h1 : SessionResult.completed i2 = SessionResult.completed info := by
            exact congrArg Prod.fst h
          injection h1 with h3
          subst h3
          obtain ⟨st3, fl, _, hca, _, hst2, _⟩ :=
            roundStep_next_spec period st r st2n ack tr2 hrs
          have hd := classifyAck_some_inv hca
          obtain ⟨st3b, ackb, hcab, _, _, _, _, h0, h1c, h2c⟩ :=
            classifyAck_spec period st r.capture r.remainingAtClassify hd
          rw [hca] at hcab
          injection hcab with hpair
          injection hpair with hst _
          subst hst
          have e1 : st2n.already = st3.already := by rw [hst2]
          have e2 : st2n.ackedBefore = st3.ackedBefore := by rw [hst2]
          have e3 : st2n.ackedPast = st3.ackedPast := by rw [hst2]
          have hlen : (r :: rest).length = rest.length + 1 := rfl
          have hcnt : ackRoundsCount (r :: rest) = 1 + ackRoundsCount rest := by
            unfold ackRoundsCount
            rw [List.takeWhile_cons, if_pos (by simp [hh])]
            simp only [List.length_cons]
            omega
          have hbuckets : st3.already + st3.ackedBefore + st3.ackedPast
              = st.already + st.ackedBefore + st.ackedPast + 1 := by
            have hsum := hb
            rw [hlen] at hsum
            rcases Nat.eq_zero_or_pos (u32sub st.lastAcked r.remainingAtClassify)
              with hz | hpos
            · obtain ⟨_, ha, hbf, hp⟩ := h0 hz
              have hu : u32 (st.already + 1) = st.already + 1 :=
                u32_of_lt (by omega)
              rw [ha, hbf, hp, hu]
              omega
            · rcases Nat.lt_or_ge 1 (u32sub st.lastAcked r.remainingAtClassify)
                with hgt | hle
              · obtain ⟨_, ha, hbf, hp⟩ := h2c hgt
                have hu : u32 (st.ackedPast + 1) = st.ackedPast + 1 :=
                  u32_of_lt (by omega)
                rw [ha, hbf, hp, hu]
                omega
              · have h1eq : u32sub st.lastAcked r.remainingAtClassify = 1 := by omega
                obtain ⟨_, ha, hbf, hp⟩ := h1c h1eq
                have hu : u32 (st.ackedBefore + 1) = st.ackedBefore + 1 :=
                  u32_of_lt (by omega)
                rw [ha, hbf, hp, hu]
                omega
          have hb2 : st2n.already + st2n.ackedBefore + st2n.ackedPast + rest.length
              < M32 := by
            rw [e1, e2, e3]
            rw [hlen] at hb
            omega
          have hih := ih st2n i2 trr hb2 hrl
          rw [hih, e1, e2, e3, hcnt]
          omega

/-- C2 (amended): provided fewer than 2^32 acknowledgement rounds occur (so
the 32-bit bucket counters cannot wrap), when a periodic-interrupt session
completes without an abort the sum AlreadyAcknowledgedCount +
AcknowledgedBeforeDeadlineCount + AcknowledgedAfterDeadlineCount equals the
number of acknowledgement rounds the master performed (each round increments
exactly one bucket by one); it need not equal InterruptCount, since a single
late acknowledgement covers several interrupt periods in one round and
interrupts never acknowledged produce no round at all, which the
counterexample shows. -/
theorem completed_bucket_sum_eq_rounds (cf : Nat)
    (cmd : StartPeriodicInterruptsCommand) (env : List AckRound)
    (info : PeriodicInterruptInfo) (hlen : env.length < M32)
    (h : (runPeriodicInterrupts cf cmd env).1 = SessionResult.completed info) :
    info.AlreadyAcknowledgedCount + info.AcknowledgedBeforeDeadlineCount
        + info.AcknowledgedAfterDeadlineCount = ackRoundsCount env := by
  unfold runPeriodicInterrupts at h
  cases hcc : ComputeInterruptCount cmd with
  | none =>
    simp only [hcc] at h
    simp at h
  | some n =>
    simp only [hcc] at h
    rcases hrl : runLoop (cf / cmd.InterruptFrequency)
        { info := {}, interruptCount := n, lastAcked := n,
          already := 0, ackedBefore := 0, ackedPast := 0 } env with ⟨res, trr⟩
    rw [hrl] at h
    cases res with
    | hang => simp at h
    | aborted i2 => simp at h
    | completed i2 =>
      have h1 : SessionResult.completed i2 = SessionResult.completed info := h
      injection h1 with h3
      subst h3
      have hb : (0 : Nat) + 0 + 0 + env.length < M32 := by omega
      have := runLoop_completed_sum (cf / cmd.InterruptFrequency) env
        { info := {}, interruptCount := n, lastAcked := n,
          already := 0, ackedBefore := 0, ackedPast := 0 } i2 trr hb hrl
      simpa using this

/-- A round acknowledged before the deadline with one interrupt pending. -/
def c2GoodRound : AckRound :=
  { remainingAtHead := 1, capture := 7,
    firstByte := FirstByte.received AcknowledgeInterruptCommand,
    remainingAtClassify := 0, txEvents := goodTx8 }

/-- Witness for C2's amended theorem: a session of one interrupt and one
timely acknowledgement round. -/
theorem completed_bucket_sum_eq_rounds_witness :
    ([c2GoodRound, zeroHeadRound].length < M32) ∧
    (runPeriodicInterrupts 100 { DurationInSeconds := 1, InterruptFrequency := 1 }
        [c2GoodRound, zeroHeadRound]).1
      = SessionResult.completed
          { InterruptCount := 1, AcknowledgedBeforeDeadlineCount := 1 } ∧
    ({ InterruptCount := 1,
       AcknowledgedBeforeDeadlineCount := 1 } : PeriodicInterruptInfo).AlreadyAcknowledgedCount
        + ({ InterruptCount := 1,
             AcknowledgedBeforeDeadlineCount := 1 } : PeriodicInterruptInfo).AcknowledgedBeforeDeadlineCount
        + ({ InterruptCount := 1,
             AcknowledgedBeforeDeadlineCount := 1 } : PeriodicInterruptInfo).AcknowledgedAfterDeadlineCount
      = ackRoundsCount [c2GoodRound, zeroHeadRound] :=
  ⟨by decide, by decide,
   completed_bucket_sum_eq_rounds 100
     { DurationInSeconds := 1, InterruptFrequency := 1 } [c2GoodRound, zeroHeadRound]
     { InterruptCount := 1, AcknowledgedBeforeDeadlineCount := 1 }
     (by decide) (by decide)⟩

/-- A round that acknowledges two periods late: both pending interrupts have
already fired when the master's single acknowledgement arrives. -/
def c2LateRound : AckRound :=
  { remainingAtHead := 2, capture := 7,
    firstByte := FirstByte.received AcknowledgeInterruptCommand,
    remainingAtClassify := 0, txEvents := goodTx8 }

/-- Counterexample to C2 as stated: a session of two interrupts in which the
master acknowledges once, two periods late, completes without abort with
AcknowledgedAfterDeadlineCount = 1 and the other buckets zero, so the bucket
sum is 1 while InterruptCount is 2. -/
theorem bucket_sum_ne_interruptCount :
    (runPeriodicInterrupts 100 { DurationInSeconds := 1, InterruptFrequency := 2 }
        [c2LateRound, zeroHeadRound]).1
      = SessionResult.completed
          { InterruptCount := 2, AcknowledgedAfterDeadlineCount := 1 } ∧
    ({ InterruptCount := 2,
       AcknowledgedAfterDeadlineCount := 1 } : PeriodicInterruptInfo).AlreadyAcknowledgedCount
        + ({ InterruptCount := 2,
             AcknowledgedAfterDeadlineCount := 1 } : PeriodicInterruptInfo).AcknowledgedBeforeDeadlineCount
        + ({ InterruptCount := 2,
             AcknowledgedAfterDeadlineCount := 1 } : PeriodicInterruptInfo).AcknowledgedAfterDeadlineCount
      ≠ ({ InterruptCount := 2,
           AcknowledgedAfterDeadlineCount := 1 } : PeriodicInterruptInfo).InterruptCount := by
  refine ⟨by decide, by decide⟩

/-! ### Transfer-loop characterisation (C5) -/

theorem takeWhile_len_le {α : Type} (p : α → Bool) :
    ∀ l : List α, (l.takeWhile p).length ≤ l.length
  | [] => le_refl 0
  | a :: l => by
    rw [List.takeWhile_cons]
    split
    · simpa using takeWhile_len_le p l
    · simp

theorem consumedRx_len_le (evs : List XferEvent) :
    (consumedRx evs).length ≤ evs.length :=
  le_trans (List.length_filterMap_le _ _) (takeWhile_len_le _ evs)

theorem consumedRx_cons_rx (e : XferEvent) (rest : List XferEvent) (d : Nat)
    (h : e.rxData = some d) :
    consumedRx (e :: rest) = d :: consumedRx rest := by
  unfold consumedRx
  rw [List.takeWhile_cons, if_pos (by simp [isBreakEvt, h])]
  simp [List.filterMap_cons, h]

theorem consumedRx_cons_skip (e : XferEvent) (rest : List XferEvent)
    (h1 : e.rxData = none) (h2 : e.cs = true) :
    consumedRx (e :: rest) = consumedRx rest := by
  unfold consumedRx
  rw [List.takeWhile_cons, if_pos (by simp [isBreakEvt, h1, h2])]
  simp [List.filterMap_cons, h1]

theorem consumedRx_cons_break (e : XferEvent) (rest : List XferEvent)
    (h1 : e.rxData = none) (h2 : e.cs = false) :
    consumedRx (e :: rest) = [] := by
  unfold consumedRx
  rw [List.takeWhile_cons, if_neg (by simp [isBreakEvt, h1, h2])]
  rfl

theorem firstMismFrom_lt_length (S dataMask : Nat) :
    ∀ (ds : List Nat) (k j : Nat),
      firstMismFrom S dataMask k ds = some j → j < ds.length
  | [], k, j => by
    intro h
    simp [firstMismFrom] at h
  | d :: ds, k, j => by
    intro h
    unfold firstMismFrom at h
    split_ifs at h with hm
    · injection h with h1
      subst h1
      simp
    · rcases Option.map_eq_some'.mp h with ⟨a, ha, hj⟩
      have := firstMismFrom_lt_length S dataMask ds (k + 1) a ha
      simp only [List.length_cons]
      omega

theorem xferLoop_exists (dataMask S : Nat) :
    ∀ (evs : List XferEvent) (s : XferState), hasBreakEvt evs = true →
      ∃ fin, xferLoop dataMask S s evs = some fin := by
  intro evs
  induction evs with
  | nil =>
    intro s hb
    simp [hasBreakEvt] at hb
  | cons e rest ih =>
    intro s hb
    cases hrx : e.rxData with
    | some d =>
      have hb' : hasBreakEvt rest = true := by
        simp only [hasBreakEvt, List.any_cons] at hb ⊢
        simpa [isBreakEvt, hrx] using hb
      obtain ⟨fin, hfin⟩ := ih _ hb'
      exact ⟨fin, by simp only [xferLoop, hrx]; exact hfin⟩
    | none =>
      by_cases hcs : e.cs
      · have hb' : hasBreakEvt rest = true := by
          simp only [hasBreakEvt, List.any_cons] at hb ⊢
          simpa [isBreakEvt, hrx, hcs] using hb
        obtain ⟨fin, hfin⟩ := ih _ hb'
        refine ⟨fin, ?_⟩
        simp only [xferLoop, hrx]
        rw [if_neg (by simp [hcs])]
        exact hfin
      · refine ⟨s, ?_⟩
        simp only [xferLoop, hrx]
        rw [if_pos (by simp [hcs])]

theorem xferStep_rxValue (m S : Nat) (s : XferState) (d : Nat) (t : Bool) :
    (xferStep m S s d t).rxValue = u32 (s.rxValue + 1) := rfl

theorem xferStep_mD (m S : Nat) (s : XferState) (d : Nat) (t : Bool) :
    (xferStep m S s d t).mismatchDetected
      = (s.mismatchDetected || decide (d ≠ s.rxValue &&& m)) := rfl

theorem xferStep_mI (m S : Nat) (s : XferState) (d : Nat) (t : Bool) :
    (xferStep m S s d t).mismatchIndex
      = if d ≠ s.rxValue &&& m ∧ s.mismatchDetected = false then
          u32sub s.rxValue S
        else s.mismatchIndex := rfl

theorem xferLoop_char (dataMask S : Nat) :
    ∀ (evs : List XferEvent) (k : Nat) (s fin : XferState),
      s.rxValue = u32 (S + k) →
      xferLoop dataMask S s evs = some fin →
      fin.rxValue = u32 (S + k + (consumedRx evs).length) ∧
      fin.mismatchDetected
        = (s.mismatchDetected
            || (firstMismFrom S dataMask k (consumedRx evs)).isSome) ∧
      fin.mismatchIndex
        = (if s.mismatchDetected then s.mismatchIndex
           else
             match firstMismFrom S dataMask k (consumedRx evs) with
             | some j => u32sub (u32 (S + k + j)) S
             | none => s.mismatchIndex) := by
  intro evs
  induction evs with
  | nil =>
    intro k s fin hrx h
    simp [xferLoop] at h
  | cons e rest ih =>
    intro k s fin hrx h
    cases hrxd : e.rxData with
    | some d =>
      simp only [xferLoop, hrxd] at h
      have hs' : (xferStep dataMask S s d e.tnf).rxValue = u32 (S + (k + 1)) := by
        rw [xferStep_rxValue, hrx, u32_add_right]
        exact congrArg u32 (by omega)
      obtain ⟨ih1, ih2, ih3⟩ := ih (k + 1) _ fin hs' h
      rw [consumedRx_cons_rx e rest d hrxd]
      have hfm : firstMismFrom S dataMask k (d :: consumedRx rest)
          = if d ≠ u32 (S + k) &&& dataMask then some 0
            else (firstMismFrom S dataMask (k + 1) (consumedRx rest)).map (· + 1) := rfl
      by_cases hmis : d = u32 (S + k) &&& dataMask
      · -- this element matches the expected value
        have hmd : (xferStep dataMask S s d e.tnf).mismatchDetected
            = s.mismatchDetected := by
          rw [xferStep_mD, hrx]
          simp [hmis]
        have hmi : (xferStep dataMask S s d e.tnf).mismatchIndex
            = s.mismatchIndex := by
          rw [xferStep_mI, hrx]
          rw [if_neg (by simp [hmis])]
        rw [hfm, if_neg (by simp [hmis])]
        refine ⟨?_, ?_, ?_⟩
        · rw [ih1, List.length_cons]
          exact congrArg u32 (by omega)
        · rw [ih2, hmd]
          cases firstMismFrom S dataMask (k + 1) (consumedRx rest) <;> simp
        · rw [ih3, hmd, hmi]
          by_cases hsd : s.mismatchDetected
          · rw [if_pos hsd, if_pos hsd]
          · rw [if_neg hsd, if_neg hsd]
            cases hfmr : firstMismFrom S dataMask (k + 1) (consumedRx rest) with
            | none => simp
            | some j =>
              simp only [Option.map_some]
              show u32sub (u32 (S + (k + 1) + j)) S = u32sub (u32 (S + k + (j + 1))) S
              exact congrArg (fun n => u32sub (u32 n) S) (by omega)
      · -- mismatch at this element
        have hmd : (xferStep dataMask S s d e.tnf).mismatchDetected = true := by
          rw [xferStep_mD, hrx]
          simp [hmis]
        by_cases hsd : s.mismatchDetected
        · have hmi : (xferStep dataMask S s d e.tnf).mismatchIndex
              = s.mismatchIndex := by
            rw [xferStep_mI]
            rw [if_neg (by simp [hsd])]
          rw [hfm, if_pos (by simp [hmis])]
          refine ⟨?_, ?_, ?_⟩
          · rw [ih1, List.length_cons]
            exact congrArg u32 (by omega)
          · rw [ih2, hmd, hsd]
            simp
          · rw [ih3, hmd, hmi, if_pos rfl, if_pos hsd]
        · have hmi : (xferStep dataMask S s d e.tnf).mismatchIndex
              = u32sub (u32 (S + k)) S := by
            rw [xferStep_mI, hrx]
            rw [if_pos ⟨by simpa using hmis, by simpa using hsd⟩]
          rw [hfm, if_pos (by simp [hmis])]
          refine ⟨?_, ?_, ?_⟩
          · rw [ih1, List.length_cons]
            exact congrArg u32 (by omega)
          · rw [ih2, hmd]
            simp [hsd]
          · rw [ih3, hmd, hmi, if_pos rfl]
            rw [if_neg (by simp [hsd])]
            exact rfl
    | none =>
      by_cases hcs : e.cs
      · simp only [xferLoop, hrxd] at h
        rw [if_neg (by simp [hcs])] at h
        have hs' : ({ s with txValue := if e.tnf then u32 (s.txValue + 1) else s.txValue }
            : XferState).rxValue = u32 (S + k) := hrx
        obtain ⟨ih1, ih2, ih3⟩ := ih k _ fin hs' h
        rw [consumedRx_cons_skip e rest hrxd hcs]
        exact ⟨ih1, ih2, ih3⟩
      · simp only [xferLoop, hrxd] at h
        rw [if_pos (by simpa using hcs)] at h
        injection h with hfin
        subst hfin
        rw [consumedRx_cons_break e rest hrxd (by simpa using hcs)]
        refine ⟨?_, ?_, ?_⟩
        · simpa using hrx
        · simp [firstMismFrom]
        · simp [firstMismFrom]

/-- C5 (amended): provided fewer than 2^32 loop events occur (so the 32-bit
element counter cannot wrap), every completed CaptureTransfer satisfies:
ElementCount is the number of received elements, MismatchIndex is at most
ElementCount, equality holds exactly when no receive-value mismatch occurred
(the sentinel), and when a mismatch occurred MismatchIndex is the receive
index of the first mismatching element — only the first is recorded.
Without the no-wrap bound the inequality fails, as the counterexample with
2^32 received elements shows. -/
theorem mismatchIndex_le_elementCount (cmd : CaptureNextTransferCommand)
    (env : CaptureEnv) (info : TransferInfo)
    (hS : cmd.SendValue < M32) (hlen : env.events.length < M32)
    (h : captureTransfer cmd env = some info) :
    info.ElementCount = (consumedRx env.events).length ∧
    info.MismatchIndex ≤ info.ElementCount ∧
    (info.MismatchIndex = info.ElementCount ↔
      firstMismFrom cmd.SendValue ((1 <<< cmd.DataBitLength) - 1) 0
        (consumedRx env.events) = none) ∧
    (∀ j, firstMismFrom cmd.SendValue ((1 <<< cmd.DataBitLength) - 1) 0
        (consumedRx env.events) = some j → info.MismatchIndex = j) := by
  unfold captureTransfer at h
  cases hwfc : waitForCapture env.wfc with
  | none =>
    simp only [hwfc] at h
    exact Option.noConfusion h
  | some p =>
    obtain ⟨st1, cap1⟩ := p
    simp only [hwfc] at h
    cases hxl : xferLoop ((1 <<< cmd.DataBitLength) - 1) cmd.SendValue
        { checksum := 0, rxValue := cmd.SendValue,
          txValue := u32 (cmd.ReceiveValue + 8),
          mismatchDetected := false, mismatchIndex := 0 } env.events with
    | none =>
      rw [hxl] at h
      exact Option.noConfusion h
    | some fin =>
      rw [hxl] at h
      injection h with hinfo
      obtain ⟨c1, c2, c3⟩ := xferLoop_char ((1 <<< cmd.DataBitLength) - 1)
        cmd.SendValue env.events 0
        { checksum := 0, rxValue := cmd.SendValue,
          txValue := u32 (cmd.ReceiveValue + 8),
          mismatchDetected := false, mismatchIndex := 0 } fin
        ((u32_of_lt hS).symm) hxl
      have hL : (consumedRx env.events).length < M32 :=
        lt_of_le_of_lt (consumedRx_len_le _) hlen
      have hEC : info.ElementCount = u32sub fin.rxValue cmd.SendValue := by
        rw [← hinfo]
      have hMI : info.MismatchIndex
          = (if fin.mismatchDetected then fin.mismatchIndex
             else u32sub fin.rxValue cmd.SendValue) := by
        rw [← hinfo]
      have hECval : u32sub fin.rxValue cmd.SendValue
          = (consumedRx env.events).length := by
        rw [c1]
        exact u32sub_u32_add hS hL
      have hECL : info.ElementCount = (consumedRx env.events).length := by
        rw [hEC, hECval]
      cases hfm : firstMismFrom cmd.SendValue ((1 <<< cmd.DataBitLength) - 1) 0
          (consumedRx env.events) with
      | none =>
        have hmd : fin.mismatchDetected = false := by
          rw [c2, hfm]
          exact rfl
        have hMIv : info.MismatchIndex = info.ElementCount := by
          rw [hMI, if_neg (by simp [hmd]), hEC]
        refine ⟨hECL, le_of_eq hMIv, by simp [hMIv], ?_⟩
        intro j hj
        exact Option.noConfusion hj
      | some j =>
        have hmd : fin.mismatchDetected = true := by
          rw [c2, hfm]
          exact rfl
        have hjlt : j < (consumedRx env.events).length :=
          firstMismFrom_lt_length _ _ _ 0 j hfm
        have hMIv : info.MismatchIndex = j := by
          rw [hMI, if_pos (by simp [hmd]), c3]
          rw [if_neg (by simp), hfm]
          show u32sub (u32 (cmd.SendValue + 0 + j)) cmd.SendValue = j
          exact u32sub_u32_add hS (by omega)
        refine ⟨hECL, ?_, ?_, ?_⟩
        · rw [hMIv, hECL]
          omega
        · constructor
          · intro heq
            rw [hMIv, hECL] at heq
            omega
          · intro hnone
            exact Option.noConfusion hnone
        · intro j2 hj2
          injection hj2 with hjj
          rw [hMIv, hjj]

/-- Witness for C5's amended theorem at the three-element capture scenario. -/
theorem mismatchIndex_le_elementCount_witness :
    c4Command.SendValue < M32 ∧ (c4Env [16, 153, 18]).events.length < M32 ∧
    captureTransfer c4Command (c4Env [16, 153, 18])
      = some { ClockActiveTimeStatus := ClockMeasurementStatus.Success,
               ClockActiveTime := 7, Checksum := 54115,
               ElementCount := 3, MismatchIndex := 1 } ∧
    (({ ClockActiveTimeStatus := ClockMeasurementStatus.Success,
        ClockActiveTime := 7, Checksum := 54115,
        ElementCount := 3, MismatchIndex := 1 } : TransferInfo).ElementCount
        = (consumedRx (c4Env [16, 153, 18]).events).length ∧
     ({ ClockActiveTimeStatus := ClockMeasurementStatus.Success,
        ClockActiveTime := 7, Checksum := 54115,
        ElementCount := 3, MismatchIndex := 1 } : TransferInfo).MismatchIndex
        ≤ ({ ClockActiveTimeStatus := ClockMeasurementStatus.Success,
             ClockActiveTime := 7, Checksum := 54115,
             ElementCount := 3, MismatchIndex := 1 } : TransferInfo).ElementCount ∧
     (({ ClockActiveTimeStatus := ClockMeasurementStatus.Success,
         ClockActiveTime := 7, Checksum := 54115,
         ElementCount := 3, MismatchIndex := 1 } : TransferInfo).MismatchIndex
          = ({ ClockActiveTimeStatus := ClockMeasurementStatus.Success,
               ClockActiveTime := 7, Checksum := 54115,
               ElementCount := 3, MismatchIndex := 1 } : TransferInfo).ElementCount ↔
        firstMismFrom c4Command.SendValue ((1 <<< c4Command.DataBitLength) - 1) 0
          (consumedRx (c4Env [16, 153, 18]).events) = none) ∧
     (∀ j, firstMismFrom c4Command.SendValue ((1 <<< c4Command.DataBitLength) - 1) 0
          (consumedRx (c4Env [16, 153, 18]).events) = some j →
        ({ ClockActiveTimeStatus := ClockMeasurementStatus.Success,
           ClockActiveTime := 7, Checksum := 54115,
           ElementCount := 3, MismatchIndex := 1 } : TransferInfo).MismatchIndex = j)) :=
  ⟨by decide, by decide, by decide,
   mismatchIndex_le_elementCount c4Command (c4Env [16, 153, 18])
     { ClockActiveTimeStatus := ClockMeasurementStatus.Success,
       ClockActiveTime := 7, Checksum := 54115,
       ElementCount := 3, MismatchIndex := 1 }
     (by decide) (by decide) (by decide)⟩

/-- Event list of the wrap counterexample: a matching element, a mismatching
element at receive index 1, then enough further elements to bring the total
to exactly 2^32 before chip select deasserts. -/
def c5HugeEvents : List XferEvent :=
  rxEvt 16 :: rxEvt 153 :: (List.replicate (M32 - 2) (rxEvt 18) ++ [csBreakEvt])

/-- Environment of the wrap counterexample. -/
def c5HugeEnv : CaptureEnv :=
  { wfc := { captureInit := 0, polls := [{ rne := false, cr0 := [5] }], tc := 0 }
    events := c5HugeEvents, timerStillEnabled := true, capture2 := 12 }

theorem consumedRx_replicate_break (d : Nat) :
    ∀ n, consumedRx (List.replicate n (rxEvt d) ++ [csBreakEvt])
      = List.replicate n d
  | 0 => consumedRx_cons_break _ _ rfl rfl
  | n + 1 => by
    show consumedRx (rxEvt d :: (List.replicate n (rxEvt d) ++ [csBreakEvt]))
        = d :: List.replicate n d
    rw [consumedRx_cons_rx _ _ d rfl, consumedRx_replicate_break d n]

theorem captureTransfer_eq (cmd : CaptureNextTransferCommand) (env : CaptureEnv)
    (st1 : ClockMeasurementStatus) (cap1 : Nat) (fin : XferState)
    (hwfc : waitForCapture env.wfc = some (st1, cap1))
    (hxl : xferLoop ((1 <<< cmd.DataBitLength) - 1) cmd.SendValue
      { checksum := 0, rxValue := cmd.SendValue,
        txValue := u32 (cmd.ReceiveValue + 8),
        mismatchDetected := false, mismatchIndex := 0 } env.events = some fin) :
    captureTransfer cmd env
      = some
          { ClockActiveTimeStatus :=
              if st1 = ClockMeasurementStatus.Success then
                if !env.timerStillEnabled then ClockMeasurementStatus.Overflow
                else ClockMeasurementStatus.Success
              else st1
            ClockActiveTime :=
              if st1 = ClockMeasurementStatus.Success ∧ env.timerStillEnabled then
                u32sub env.capture2 cap1
              else 0
            Checksum := fin.checksum
            ElementCount := u32sub fin.rxValue cmd.SendValue
            MismatchIndex :=
              if fin.mismatchDetected then fin.mismatchIndex
              else u32sub fin.rxValue cmd.SendValue } := by
  unfold captureTransfer
  simp only [hwfc, hxl]

/-- Counterexample to C5 as stated: when exactly 2^32 elements are received
in one transfer, the 32-bit element counter wraps to 0 while the recorded
first-mismatch index (here 1) does not, so the returned TransferInfo has
MismatchIndex = 1 > 0 = ElementCount. -/
theorem mismatchIndex_gt_elementCount_on_wrap :
    ∃ info, captureTransfer c4Command c5HugeEnv = some info ∧
      info.MismatchIndex = 1 ∧ info.ElementCount = 0 ∧
      ¬ info.MismatchIndex ≤ info.ElementCount := by
  have hbrk : hasBreakEvt c5HugeEvents = true := by
    unfold c5HugeEvents hasBreakEvt
    rw [List.any_cons, List.any_cons, List.any_append]
    rw [show (List.any [csBreakEvt] isBreakEvt) = true from rfl]
    rw [Bool.or_true, Bool.or_true, Bool.or_true]
  obtain ⟨fin, hfin⟩ := xferLoop_exists ((1 <<< c4Command.DataBitLength) - 1)
    c4Command.SendValue c5HugeEvents
    { checksum := 0, rxValue := c4Command.SendValue,
      txValue := u32 (c4Command.ReceiveValue + 8),
      mismatchDetected := false, mismatchIndex := 0 } hbrk
  obtain ⟨c1, c2, c3⟩ := xferLoop_char ((1 <<< c4Command.DataBitLength) - 1)
    c4Command.SendValue c5HugeEvents 0
    { checksum := 0, rxValue := c4Command.SendValue,
      txValue := u32 (c4Command.ReceiveValue + 8),
      mismatchDetected := false, mismatchIndex := 0 } fin (by decide) hfin
  have hcr : consumedRx c5HugeEvents = 16 :: 153 :: List.replicate (M32 - 2) 18 := by
    unfold c5HugeEvents
    rw [consumedRx_cons_rx _ _ 16 rfl, consumedRx_cons_rx _ _ 153 rfl,
      consumedRx_replicate_break 18 (M32 - 2)]
  have hlenr : (16 :: 153 :: List.replicate (M32 - 2) 18).length = M32 := by
    rw [List.length_cons, List.length_cons, List.length_replicate]
    decide
  have hfm5 : firstMismFrom c4Command.SendValue ((1 <<< c4Command.DataBitLength) - 1) 0
      (16 :: 153 :: List.replicate (M32 - 2) 18) = some 1 := by
    unfold firstMismFrom
    rw [if_neg (by decide)]
    unfold firstMismFrom
    rw [if_pos (by decide)]
    rfl
  rw [hcr] at c1 c2 c3
  rw [hfm5] at c2 c3
  rw [hlenr] at c1
  have hmd : fin.mismatchDetected = true := by
    rw [c2]
    exact rfl
  have hmi : fin.mismatchIndex = 1 := by
    rw [c3]
    show u32sub (u32 (c4Command.SendValue + 0 + 1)) c4Command.SendValue = 1
    decide
  have hrx5 : fin.rxValue = c4Command.SendValue := by
    rw [c1]
    decide
  have hev : c5HugeEvents = c5HugeEnv.events := rfl
  rw [hev] at hfin
  have hwfc5 : waitForCapture c5HugeEnv.wfc
      = some (ClockMeasurementStatus.Success, 5) := by decide
  have hct := captureTransfer_eq c4Command c5HugeEnv
    ClockMeasurementStatus.Success 5 fin hwfc5 hfin
  rw [hct, if_pos hmd, hmi, hrx5]
  refine ⟨_, rfl, ?_, ?_, ?_⟩
  · exact rfl
  · show u32sub c4Command.SendValue c4Command.SendValue = 0
    decide
  · show ¬ (1 : Nat) ≤ u32sub c4Command.SendValue c4Command.SendValue
    decide
